import Mathlib

/-!
Verification of the sheevy CSV proxy (src/app.js, final revision).

Shallow embedding conventions:
  * a spreadsheet cell is `Option String` (`none` models a JS `null`/`undefined` cell);
  * a row is a list of cells; the fetched row set is a list of rows;
  * the JS number `headerRow` (result of `parseInt`) is `Option Int`
    (`none` models `NaN`);
  * HTTP responses of the CSV helpers are `SendResult` (a 200 CSV body or a
    400 client error with its message).
Definitions are translated from `src/app.js` and are named after the source
functions they embed.
-/

namespace Sheevy

abbrev Cell := Option String

abbrev Row := List Cell

/-- Embeds `cell.replace(/\r\n/g, '\n')` from `toCsvLine`: every (left-to-right,
non-overlapping) occurrence of CR-LF becomes a single LF. -/
def replaceCrLf : List Char → List Char
  | '\r' :: '\n' :: rest => '\n' :: replaceCrLf rest
  | c :: rest => c :: replaceCrLf rest
  | [] => []

/-- Embeds `.replace(/\r/g, '\n')` from `toCsvLine`: every remaining CR becomes LF. -/
def replaceCr : List Char → List Char
  | '\r' :: rest => '\n' :: replaceCr rest
  | c :: rest => c :: replaceCr rest
  | [] => []

/-- Embeds `.replace(/"/g, '""')` from `toCsvLine`: every double quote is doubled. -/
def escapeQuotes : List Char → List Char
  | '"' :: rest => '"' :: '"' :: escapeQuotes rest
  | c :: rest => c :: escapeQuotes rest
  | [] => []

/-- Embeds the per-cell body of `toCsvLine` (src/app.js lines 542-554):
null/undefined becomes the empty string, line endings are normalized,
double quotes doubled, and the cell is wrapped in quotes when the escaped
text contains a quote, a newline, or a comma (`escaped.search(/["\n,]/)`). -/
def encodeCell (val : Cell) : String :=
  let cell := match val with | none => "" | some s => s
  let normalized := replaceCr (replaceCrLf cell.toList)
  let escaped := escapeQuotes normalized
  if escaped.any (fun c => c == '"' || c == '\n' || c == ',') then
    String.mk ('"' :: escaped ++ ['"'])
  else
    String.mk escaped

/-- Embeds `Array.prototype.join(sep)`: elements joined by the separator,
none leading or trailing. -/
def joinWith (sep : String) : List String → String
  | [] => ""
  | [x] => x
  | x :: y :: rest => x ++ sep ++ joinWith sep (y :: rest)

/-- Embeds `toCsvLine` (src/app.js lines 540-556): encode each cell and join
with commas. -/
def toCsvLine (rowArray : Row) : String :=
  joinWith "," (rowArray.map encodeCell)

/-- Embeds `csvLines.join('\n')` (src/app.js lines 689-690 and 738-739):
rows joined with a single LF, no trailing LF. -/
def csvContent (grid : List Row) : String :=
  joinWith "\n" (grid.map toCsvLine)

/-- Spec-side cell encoder, written from the words of spec section 4.2
("convert absent/null to empty string; normalize line-ending sequences
(CR-LF and bare CR) to a single line-feed character; double every literal
double-quote character; wrap the cell in double quotes if, after the above
transforms, it contains a double quote, a comma, or a line feed").
Used only to compare the source encoder against the specified one. -/
def specNormalizeNewlines : List Char → List Char
  | '\r' :: '\n' :: rest => '\n' :: specNormalizeNewlines rest
  | '\r' :: rest => '\n' :: specNormalizeNewlines rest
  | c :: rest => c :: specNormalizeNewlines rest
  | [] => []

/-- Spec-side quote doubling (see `specNormalizeNewlines`). -/
def specDoubleQuotes (cs : List Char) : List Char :=
  cs.flatMap (fun c => if c = '"' then ['"', '"'] else [c])

/-- Spec-side encoder assembled from spec section 4.2 wording
(see `specNormalizeNewlines`). -/
def specEncodeCell (val : Cell) : String :=
  let cs := specDoubleQuotes (specNormalizeNewlines ((val.getD "").toList))
  if cs.any (fun c => c == '"' || c == ',' || c == '\n') then
    String.mk ('"' :: cs ++ ['"'])
  else
    String.mk cs

/-- Embeds the `while (n > 0)` loop of `getColumnName` (src/app.js lines
703-708), producing the digits of the bijective base-26 column label for a
positive loop counter. The first argument is a fuel counter bounding the
number of iterations: each pass replaces the counter `n` by `(n-1)/26 < n`,
so `n` units of fuel always suffice (`columnNameDigits_fuel`). -/
def columnNameDigitsAux : Nat → Nat → List Char
  | _, 0 => []
  | 0, _ + 1 => []
  | fuel + 1, n + 1 => columnNameDigitsAux fuel (n / 26) ++ [Char.ofNat (65 + n % 26)]

/-- Digits of `getColumnName`'s loop for counter `n` (see `columnNameDigitsAux`). -/
def columnNameDigits (n : Nat) : List Char :=
  columnNameDigitsAux n n

/-- Embeds `getColumnName` (src/app.js lines 701-710): 0 ↦ "A", 25 ↦ "Z",
26 ↦ "AA". The source increments its argument before the loop. -/
def getColumnName (n : Nat) : String :=
  String.mk (columnNameDigits (n + 1))

/-- Result of the CSV-sending helpers: a 200 response with a CSV body, or a
400 client error with its message (`res.status(400).send(...)`). -/
inductive SendResult where
  | ok (body : String)
  | clientError (status : Nat) (msg : String)
deriving DecidableEq, Repr

/-- True exactly on the `clientError` constructor of `SendResult`. -/
def SendResult.isClientError : SendResult → Bool
  | .clientError _ _ => true
  | .ok _ => false

/-- Embeds the header-validity test of `removeInvalidHeaders` (src/app.js
line 627): a header cell is kept unless it is `''`, `'#N/A'` or `'#REF!'`
(a `null` cell compares unequal to all three strings and is kept). -/
def validHeaderCell (cell : Cell) : Bool :=
  cell != some "" && cell != some "#N/A" && cell != some "#REF!"

/-- Embeds the `indicesToKeep` loop of `removeInvalidHeaders` (src/app.js
lines 623-630): the positions of valid cells in the header row, in order. -/
def indicesToKeep (header : Row) : List Nat :=
  (List.range header.length).filter (fun i => validHeaderCell (header.getD i none))

/-- Embeds `removeInvalidHeaders` (src/app.js lines 617-647): the kept
positions are computed once from the first row, then every row is projected
onto them, reading `''` past the end of a short row
(`index < row.length ? row[index] : ''`). -/
def removeInvalidHeaders (rows : List Row) : List Row :=
  match rows with
  | [] => []
  | header :: _ =>
      rows.map (fun row => (indicesToKeep header).map (fun index => row.getD index (some "")))

/-- A JS number as produced by `parseInt`: `none` models `NaN`. -/
abbrev JsNum := Option Int

/-- Embeds a JS `>` comparison whose left side may be `NaN` (`NaN > x` is
false): used for `headerRow > rows.length` (src/app.js line 660). -/
def jsGt (a : JsNum) (b : Int) : Bool :=
  match a with
  | none => false
  | some x => decide (x > b)

/-- Embeds the start-index clamping of `Array.prototype.slice` as used by
`rows.slice(headerIndex)` (src/app.js line 668): `NaN` becomes 0, a negative
index counts from the end, and the index is clamped to the length. -/
def jsSliceStart (len : Nat) (a : JsNum) : Nat :=
  match a with
  | none => 0
  | some i => if i < 0 then (Int.ofNat len + i).toNat else min i.toNat len

/-- Embeds the per-row normalization of `sendCsv` (src/app.js lines 677-683):
`row.slice(0, colCount)` then push `''` until the length is `colCount`. -/
def normalizeRow (colCount : Nat) (row : Row) : Row :=
  row.take colCount ++ List.replicate (colCount - (row.take colCount).length) (some "")

/-- The 400 message of `sendCsv` for an out-of-range header row (src/app.js
line 664). -/
def rangeErrorMsg (headerRow : Int) (total : Nat) : String :=
  "headerRow=" ++ toString headerRow ++ " is out of range (1.." ++ toString total ++ ")."

/-- Embeds `sendCsv` (src/app.js lines 654-695): empty input sends an empty
body; `headerRow > rows.length` is a 400; otherwise rows before the header
row are sliced off, every remaining row is truncated/padded to the length of
the new first row, invalid-header columns are removed unless
`allowNullableHeaders`, and the grid is encoded. -/
def sendCsv (rows : List Row) (headerRow : JsNum) (allowNullableHeaders : Bool) : SendResult :=
  if rows.length = 0 then .ok ""
  else if jsGt headerRow (Int.ofNat rows.length) then
    .clientError 400 (match headerRow with
      | some i => rangeErrorMsg i rows.length
      | none => "")
  else
    let headerIndex := headerRow.map (fun i => i - 1)
    let slicedRows := rows.drop (jsSliceStart rows.length headerIndex)
    match slicedRows with
    | [] => .ok ""
    | first :: rest =>
        let normalizedRows := (first :: rest).map (normalizeRow first.length)
        let finalRows := if allowNullableHeaders then normalizedRows
          else removeInvalidHeaders normalizedRows
        .ok (csvContent finalRows)

/-- Embeds the `maxCols` loop of `sendRawCsv` (src/app.js lines 724-729). -/
def maxCols (rows : List Row) : Nat :=
  rows.foldl (fun m row => if row.length > m then row.length else m) 0

/-- Embeds the generated header row of `sendRawCsv` (src/app.js lines
731-734): column labels `A`, `B`, ... for `m` columns. -/
def rawHeaders (m : Nat) : Row :=
  (List.range m).map (fun i => some (getColumnName i))

/-- Embeds `const allRows = [headers, ...rows]` of `sendRawCsv` (src/app.js
line 736): the generated header row prepended to the data rows unchanged. -/
def rawGrid (rows : List Row) : List Row :=
  rawHeaders (maxCols rows) :: rows

/-- Embeds `sendRawCsv` (src/app.js lines 717-744). -/
def sendRawCsv (rows : List Row) : SendResult :=
  if rows.length = 0 then .ok ""
  else .ok (csvContent (rawGrid rows))

/-- Embeds `parseInt(s, 10)`: leading whitespace skipped, optional sign,
then a nonempty run of decimal digits, else `NaN`. -/
def parseIntJs (s : String) : JsNum :=
  let cs := s.toList.dropWhile (fun c => c == ' ' || c == '\t' || c == '\n' || c == '\r')
  let digitsVal : List Char → JsNum := fun ds =>
    let run := ds.takeWhile Char.isDigit
    if run.isEmpty then none
    else some (Int.ofNat (run.foldl (fun a c => a * 10 + (c.toNat - 48)) 0))
  match cs with
  | '-' :: rest => (digitsVal rest).map (fun i => -i)
  | '+' :: rest => digitsVal rest
  | _ => digitsVal cs

/-- Embeds the headerRow parsing of the tabular handler (src/app.js lines
1005-1006): `headerRowParam ? parseInt(headerRowParam, 10) : 1` (an absent
or empty — falsy — parameter defaults to 1, anything else goes through
`parseInt` and may be `NaN`). -/
def parseHeaderRowParam (headerRowParam : Option String) : JsNum :=
  match headerRowParam with
  | none => some 1
  | some s => if s = "" then some 1 else parseIntJs s

/-- Embeds the non-raw tail of the `GET /:spreadsheetId/:sheetParam` handler
(src/app.js lines 1004-1008): parse `headerRow`, read the
`allowNulableHeaders` flag (`=== '1'`), and call `sendCsv`. -/
def handleTabular (rows : List Row) (headerRowParam allowNulableHeadersParam : Option String) :
    SendResult :=
  sendCsv rows (parseHeaderRowParam headerRowParam) (allowNulableHeadersParam == some "1")

/-!
Durable download cache, `GET /drive/:fileId` (src/app.js lines 803-925).

The handler is embedded as transition systems over explicit filesystem
state. Chunks of the remote byte stream are lists of bytes (`List Nat`).
-/

/-- Filesystem/response state of one in-progress drive download, after the
handler has created the lock (line 844) and opened the cache write stream
(line 901, which creates the cache file on disk). -/
structure DownloadState where
  lockExists : Bool
  cacheFileExists : Bool
  cacheChunks : List (List Nat)
  writeComplete : Bool
  clientChunks : List (List Nat)
  responseStatus : Option Nat
  aborted : Bool
deriving DecidableEq, Repr

/-- State after `fs.writeFileSync(lockFilePath, 'lock')` (line 844) and
`fs.createWriteStream(cacheFilePath)` (line 901): lock present, cache file
present but empty and not yet completely written. -/
def initialDownloadState : DownloadState :=
  { lockExists := true
    cacheFileExists := true
    cacheChunks := []
    writeComplete := false
    clientChunks := []
    responseStatus := none
    aborted := false }

/-- Events emitted by the remote byte stream (`driveStream`). -/
inductive StreamEvent where
  | chunk (data : List Nat)
  | streamEnd
  | streamError
deriving DecidableEq, Repr

/-- Embeds the `driveStream` event handlers (src/app.js lines 879-913):
`data` forwards the chunk to both the client branch and the disk branch;
`end` ends both branches, so the gzip write finishes and the `finish`
handler unlinks the lock; `error` destroys both branches, unlinks the lock,
and answers 500 — the partially written cache file is not removed and the
`finish` handler never runs. Destroyed/finished streams ignore further
events. -/
def stepDownload (s : DownloadState) (e : StreamEvent) : DownloadState :=
  if s.aborted || s.writeComplete then s
  else
    match e with
    | .chunk data =>
        { s with clientChunks := s.clientChunks ++ [data]
                 cacheChunks := s.cacheChunks ++ [data] }
    | .streamEnd =>
        { s with writeComplete := true, lockExists := false }
    | .streamError =>
        { s with aborted := true, lockExists := false, responseStatus := some 500 }

/-- Runs one download against a sequence of stream events. -/
def runDownload (events : List StreamEvent) : DownloadState :=
  events.foldl stepDownload initialDownloadState

/-- What a later request for the same fileId does, given the on-disk state
(src/app.js lines 815 and 834): waits when the lock exists, serves the cache
file when it exists, and downloads afresh otherwise. -/
inductive LaterAction where
  | waitForLock
  | serveFromCache
  | freshDownload
deriving DecidableEq, Repr

/-- Decision of a later request from the lock/cache existence checks
(src/app.js lines 815 and 834). -/
def laterRequestAction (lockExists cacheFileExists : Bool) : LaterAction :=
  if lockExists then .waitForLock
  else if cacheFileExists then .serveFromCache
  else .freshDownload

/-- Filesystem state as observed by one `check()` poll of
`waitForCacheFile` (src/app.js lines 761-785): whether the lock file
exists, its age in milliseconds, and whether the cache file exists. -/
structure LockFsState where
  lockExists : Bool
  lockAgeMs : Nat
  cacheFileExists : Bool
deriving DecidableEq, Repr

/-- Outcome of the promise returned by `waitForCacheFile`. -/
inductive WaitOutcome where
  | resolvedNoLock
  | resolvedStaleRemoved
  | rejectedTimeout
  | stillPolling
deriving DecidableEq, Repr

/-- Embeds one `check()` iteration of `waitForCacheFile` (src/app.js lines
761-785) at elapsed time `elapsedMs`: resolve when the lock file is absent;
otherwise remove a lock older than 30000 ms and resolve; otherwise reject
after 30000 ms of waiting; otherwise poll again in 500 ms. The cache file
is never consulted, despite the function's name. -/
def waitCheckStep (elapsedMs : Nat) (fsState : LockFsState) : WaitOutcome :=
  if !fsState.lockExists then .resolvedNoLock
  else if fsState.lockAgeMs > 30000 then .resolvedStaleRemoved
  else if elapsedMs > 30000 then .rejectedTimeout
  else .stillPolling

/-- Runs `waitForCacheFile` over the filesystem states observed by the
successive polls (500 ms apart), returning the outcome together with the
filesystem state at resolution time (with the lock removed in the
stale-lock case, `fs.unlinkSync(lockFilePath)` at line 773). An exhausted
trace means the loop was still polling. -/
def runWait : List LockFsState → Nat → WaitOutcome × LockFsState
  | [], _ => (.stillPolling, { lockExists := true, lockAgeMs := 0, cacheFileExists := false })
  | fsState :: rest, i =>
      match waitCheckStep (500 * i) fsState with
      | .stillPolling => runWait rest (i + 1)
      | .resolvedStaleRemoved => (.resolvedStaleRemoved, { fsState with lockExists := false })
      | outcome => (outcome, fsState)

/-- Embeds the lock-wait branch of the drive handler (src/app.js lines
815-847) for a request that found a lock: after `waitForCacheFile` settles,
a resolved wait serves the cache file path whenever the lock file is absent
(line 819) — without checking that the cache file exists — and otherwise
falls through to the line-834 checks; a rejected wait falls through
directly (cache file present → serve it, else create a lock and download). -/
def driveLockWaitBranch (trace : List LockFsState) : LaterAction :=
  let settled := runWait trace 0
  let post := settled.2
  match settled.1 with
  | .rejectedTimeout =>
      if post.cacheFileExists then .serveFromCache else .freshDownload
  | _ =>
      if !post.lockExists then .serveFromCache
      else if post.cacheFileExists then .serveFromCache
      else .freshDownload

/-!
Single-flight coordination of two concurrent first-time requests (claim
C9). The two handlers interleave only at I/O suspension points (the code
from the lock check at line 815 to the lock creation at line 844 is
synchronous, so the check-then-create section is one atomic step in Node's
event-loop model). Each scheduled step carries a `staleObserved` flag: a
waiting request's poll of `waitForCacheFile` reads the lock file's age, and
the flag is true exactly when that read finds the lock older than the 30 s
threshold — which the environment can make happen precisely in executions
where the download has outlasted the window. Leaving the flag free to the
scheduler over-approximates the code's behaviours, so properties proved
over all schedules cover every execution, while the stale counterexample
trace corresponds to a real slow-download run. The rejection branch of
`waitForCacheFile` (elapsed over 30 s with a still-fresh lock) is
unreachable in the two-request race: the waiter starts polling after the
lock was created, so the lock's age exceeds the waiter's elapsed time and
the stale branch (checked first) fires before the elapsed-time branch. -/

/-- Phase of one request in the two-request race. `downloading` holds the
lock and is streaming; `flushed` has completely written the cache file but
not yet unlinked the lock (the `finish` handler runs after the write
completes); `served`/`downloadedDone` are terminal with the bytes the
client received. -/
inductive ReqPhase where
  | start
  | waiting
  | downloading
  | flushed
  | served (bytes : List Nat)
  | downloadedDone (bytes : List Nat)
deriving DecidableEq, Repr

/-- Global state of the race: the lock file, the bytes currently in the
on-disk cache file (`none` while the file is absent; `some` bytes once
`createWriteStream` created it), both request phases, and how many remote
downloads were invoked. -/
structure CoordState where
  lockExists : Bool
  cacheFile : Option (List Nat)
  phaseA : ReqPhase
  phaseB : ReqPhase
  downloadCount : Nat
deriving DecidableEq, Repr

/-- Initial race state: no lock, no cache file, both requests arriving. -/
def initCoord : CoordState :=
  { lockExists := false, cacheFile := none
    phaseA := .start, phaseB := .start, downloadCount := 0 }

/-- One atomic step of a single request, between suspension points
(src/app.js lines 803-925): at `start`, the synchronous section checks the
lock (line 815) and the cache (line 834) and otherwise creates the lock,
creates the cache file and invokes the download (lines 844-901); at
`waiting`, one poll of `waitForCacheFile` — a fresh lock keeps polling,
while a stale lock is unlinked (line 773) or an absent lock resolves, after
which line 819 serves whatever the cache file currently holds; a
`downloading` request finishes writing the cache file; a `flushed`
request's `finish` handler unlinks the lock. The model writes the cache
file in one step, so mid-download it holds the empty prefix `[]`; the code
writes incrementally, so any proper prefix (or, before `createWriteStream`
runs, a missing file whose read errors) can be observed — either way a
stale-resolving waiter does not receive the full content. Returns the new
phase, lock state, cache-file state, and the number of download
invocations this step performed. -/
def stepRequest (content : List Nat) (phase : ReqPhase) (lock : Bool)
    (cache : Option (List Nat)) (staleObserved : Bool) :
    ReqPhase × Bool × Option (List Nat) × Nat :=
  match phase with
  | .start =>
      if lock then (.waiting, lock, cache, 0)
      else
        match cache with
        | some c => (.served c, lock, cache, 0)
        | none => (.downloading, true, some [], 1)
  | .waiting =>
      if lock && !staleObserved then (.waiting, lock, cache, 0)
      else (.served (cache.getD []), false, cache, 0)
  | .downloading => (.flushed, lock, some content, 0)
  | .flushed => (.downloadedDone content, false, cache, 0)
  | .served b => (.served b, lock, cache, 0)
  | .downloadedDone b => (.downloadedDone b, lock, cache, 0)

/-- Which of the two racing requests takes the next step. -/
inductive Requester where
  | reqA
  | reqB
deriving DecidableEq, Repr

/-- Applies one atomic step to the global state: the scheduled request
moves, with the given stale-lock observation for its poll. -/
def stepCoord (content : List Nat) (s : CoordState) (ev : Requester × Bool) : CoordState :=
  match ev.1 with
  | .reqA =>
      let r := stepRequest content s.phaseA s.lockExists s.cacheFile ev.2
      { s with phaseA := r.1, lockExists := r.2.1, cacheFile := r.2.2.1
               downloadCount := s.downloadCount + r.2.2.2 }
  | .reqB =>
      let r := stepRequest content s.phaseB s.lockExists s.cacheFile ev.2
      { s with phaseB := r.1, lockExists := r.2.1, cacheFile := r.2.2.1
               downloadCount := s.downloadCount + r.2.2.2 }

/-- Runs the race under a schedule of request steps with their stale-lock
observations. -/
def runCoord (content : List Nat) (sched : List (Requester × Bool)) : CoordState :=
  sched.foldl (stepCoord content) initCoord

/-- A schedule in which no poll ever observes a stale lock: the download
completes within the 30 s staleness window. -/
def cleanSched (sched : List (Requester × Bool)) : Prop :=
  ∀ ev ∈ sched, ev.2 = false

/-- A request phase holding an in-flight download (lock created by it,
cache file incomplete). -/
def ReqPhase.inFlight : ReqPhase → Bool
  | .downloading => true
  | .flushed => true
  | _ => false

/-- A request phase that has ever invoked the remote download. -/
def ReqPhase.startedDownload : ReqPhase → Bool
  | .downloading => true
  | .flushed => true
  | .downloadedDone _ => true
  | _ => false

/-- A terminal phase: the request has answered its client. -/
def ReqPhase.isTerminal : ReqPhase → Bool
  | .served _ => true
  | .downloadedDone _ => true
  | _ => false

/-- The bytes a finished request handed to its client. -/
def ReqPhase.bytes : ReqPhase → Option (List Nat)
  | .served b => some b
  | .downloadedDone b => some b
  | _ => none

/-- Exchanges the two requests' phases (the race is symmetric in A and B). -/
def swapCoord (s : CoordState) : CoordState :=
  { lockExists := s.lockExists, cacheFile := s.cacheFile
    phaseA := s.phaseB, phaseB := s.phaseA, downloadCount := s.downloadCount }

/-- A request phase that has completely written the cache file. -/
def ReqPhase.wroteCache : ReqPhase → Bool
  | .flushed => true
  | .downloadedDone _ => true
  | _ => false

/-- Safety invariant of the race, preserved by every step — stale-lock
observations included: never two downloads in flight, at most one request
ever starts a download and the invocation count matches; the cache file
exists exactly once a download has started, the lock implies a download
has started, and a request reaches `waiting` or `served` only once a
download has started. -/
structure CoordSafe (s : CoordState) : Prop where
  not_both_inflight : (s.phaseA.inFlight && s.phaseB.inFlight) = false
  not_both_started : (s.phaseA.startedDownload && s.phaseB.startedDownload) = false
  count_eq : s.downloadCount =
    (if s.phaseA.startedDownload then 1 else 0) + (if s.phaseB.startedDownload then 1 else 0)
  cache_iff : s.cacheFile = none ↔ (s.phaseA.startedDownload || s.phaseB.startedDownload) = false
  lock_started : s.lockExists = true →
    (s.phaseA.startedDownload || s.phaseB.startedDownload) = true
  waitingA : s.phaseA = .waiting →
    (s.phaseA.startedDownload || s.phaseB.startedDownload) = true
  waitingB : s.phaseB = .waiting →
    (s.phaseA.startedDownload || s.phaseB.startedDownload) = true
  servedA : ∀ b, s.phaseA = .served b →
    (s.phaseA.startedDownload || s.phaseB.startedDownload) = true
  servedB : ∀ b, s.phaseB = .served b →
    (s.phaseA.startedDownload || s.phaseB.startedDownload) = true

/-- Invariant of the race under clean schedules (no stale-lock observation
ever occurs, i.e. the download completes within the window): the lock is
held exactly while a download is in flight; once a downloader has flushed,
the cache file holds the full content, and before that it is absent or the
in-flight empty prefix; a waiting request sees the lock or a completed
write; every finished request answered with the full remote content. -/
structure CoordClean (content : List Nat) (s : CoordState) : Prop where
  lock_eq : s.lockExists = (s.phaseA.inFlight || s.phaseB.inFlight)
  not_both_inflight : (s.phaseA.inFlight && s.phaseB.inFlight) = false
  wrote_cache : (s.phaseA.wroteCache || s.phaseB.wroteCache) = true →
    s.cacheFile = some content
  unwritten_cache : (s.phaseA.wroteCache || s.phaseB.wroteCache) = false →
    s.cacheFile = none ∨ s.cacheFile = some []
  cache_dl : (s.phaseA.wroteCache || s.phaseB.wroteCache) = false → s.cacheFile ≠ none →
    (s.phaseA.inFlight || s.phaseB.inFlight) = true
  waitA : s.phaseA = .waiting →
    s.lockExists = true ∨ (s.phaseA.wroteCache || s.phaseB.wroteCache) = true
  waitB : s.phaseB = .waiting →
    s.lockExists = true ∨ (s.phaseA.wroteCache || s.phaseB.wroteCache) = true
  servedA : ∀ b, s.phaseA = .served b → b = content
  servedB : ∀ b, s.phaseB = .served b → b = content
  doneA : ∀ b, s.phaseA = .downloadedDone b → b = content
  doneB : ∀ b, s.phaseB = .downloadedDone b → b = content

/-! Helper lemmas. -/

theorem escapeQuotes_cons_ne (c : Char) (rest : List Char) (hc : ¬c = '"') :
    escapeQuotes (c :: rest) = c :: escapeQuotes rest := by
  cases rest <;> simp [escapeQuotes, hc]

theorem escapeQuotes_eq_specDoubleQuotes (cs : List Char) :
    escapeQuotes cs = specDoubleQuotes cs := by
  induction cs with
  | nil => rfl
  | cons c rest ih =>
    by_cases hc : c = '"'
    · subst hc
      simp [escapeQuotes, specDoubleQuotes, ih]
    · rw [escapeQuotes_cons_ne c rest hc]
      simp [specDoubleQuotes, hc] at ih ⊢
      exact ih

theorem replaceCrLf_cons_ne (c : Char) (rest : List Char) (hc : ¬c = '\r') :
    replaceCrLf (c :: rest) = c :: replaceCrLf rest := by
  cases rest <;> simp [replaceCrLf, hc]

theorem replaceCr_cons_ne (c : Char) (rest : List Char) (hc : ¬c = '\r') :
    replaceCr (c :: rest) = c :: replaceCr rest := by
  simp [replaceCr, hc]

theorem specNormalizeNewlines_cons_ne (c : Char) (rest : List Char) (hc : ¬c = '\r') :
    specNormalizeNewlines (c :: rest) = c :: specNormalizeNewlines rest := by
  cases rest <;> simp [specNormalizeNewlines, hc]

theorem normalize_eq (cs : List Char) :
    replaceCr (replaceCrLf cs) = specNormalizeNewlines cs := by
  induction cs using specNormalizeNewlines.induct with
  | case1 rest ih =>
    simp [replaceCrLf, specNormalizeNewlines, replaceCr_cons_ne, ih]
  | case2 rest hne ih =>
    have h1 : replaceCrLf ('\r' :: rest) = '\r' :: replaceCrLf rest := by
      cases rest with
      | nil => rfl
      | cons c' rest' =>
        have : ¬c' = '\n' := fun h => hne rest' (by rw [h])
        simp [replaceCrLf, this]
    rw [h1]
    simp [replaceCr, specNormalizeNewlines, ih]
  | case3 c rest h1 h2 ih =>
    have hc : ¬c = '\r' := fun h => h2 h
    rw [replaceCrLf_cons_ne c rest hc, replaceCr_cons_ne c (replaceCrLf rest) hc, ih,
      specNormalizeNewlines_cons_ne c rest hc]
  | case4 => rfl

theorem trigger_any_comm (cs : List Char) :
    (cs.any (fun c => c == '"' || c == '\n' || c == ',')) =
      (cs.any (fun c => c == '"' || c == ',' || c == '\n')) := by
  induction cs with
  | nil => rfl
  | cons c rest ih =>
    simp only [List.any_cons, ih]
    cases h1 : c == '"' <;> cases h2 : c == ',' <;> cases h3 : c == '\n' <;> simp [h1, h2, h3]

theorem encodeCell_eq_spec (val : Cell) : encodeCell val = specEncodeCell val := by
  cases val with
  | none => rfl
  | some s =>
    simp only [encodeCell, specEncodeCell, Option.getD]
    rw [normalize_eq, escapeQuotes_eq_specDoubleQuotes] at *
    rw [trigger_any_comm]

theorem normalizeRow_length (colCount : Nat) (row : Row) :
    (normalizeRow colCount row).length = colCount := by
  simp [normalizeRow]

theorem removeInvalidHeaders_cons (header : Row) (rest : List Row) :
    removeInvalidHeaders (header :: rest) =
      (header :: rest).map (fun row => (indicesToKeep header).map
        (fun index => row.getD index (some ""))) := rfl

theorem removeInvalidHeaders_row_length (header : Row) (rest : List Row) (row : Row)
    (h : row ∈ removeInvalidHeaders (header :: rest)) :
    row.length = (indicesToKeep header).length := by
  rw [removeInvalidHeaders_cons] at h
  obtain ⟨orig, _, rfl⟩ := List.mem_map.mp h
  exact List.length_map _ _

/-- C5 (claim): for every row of cells, the CSV encoder turns an absent/null
cell into the empty string, normalizes CR-LF and bare CR to LF, doubles
every double quote, and wraps the cell in quotes exactly when the
transformed text contains a quote, a comma or a line feed (this is stated
as equality with `specEncodeCell`, assembled independently from the spec's
words); cells are joined with commas, rows with a single LF and no trailing
LF; the cell `He said, "hi"` encodes to `"He said, ""hi"""`. -/
theorem csv_encoder_correct :
    encodeCell none = ""
    ∧ (∀ val : Cell, encodeCell val = specEncodeCell val)
    ∧ toCsvLine [some "He said, \"hi\""] = "\"He said, \"\"hi\"\"\""
    ∧ (∀ (row : Row) (rest : List Row),
        csvContent (row :: rest) =
          toCsvLine row ++ (if rest.isEmpty then "" else "\n" ++ csvContent rest)) := by
  refine ⟨rfl, encodeCell_eq_spec, by decide, ?_⟩
  intro row rest
  cases rest with
  | nil => simp [csvContent, joinWith]
  | cons next more => simp [csvContent, joinWith, String.append_assoc]

/-- C1 (counterexample): in raw mode the grid sent to the CSV encoder is not
rectangular: on `[["a","b","c"],["x"]]` the generated header has 3 cells but
the second data row still has 1. -/
theorem rawGrid_not_rectangular_counterexample :
    ¬∃ k, ∀ row ∈ rawGrid [[some "a", some "b", some "c"], [some "x"]], row.length = k := by
  rintro ⟨k, h⟩
  have e : rawGrid [[some "a", some "b", some "c"], [some "x"]] =
      [[some "A", some "B", some "C"], [some "a", some "b", some "c"], [some "x"]] := by decide
  rw [e] at h
  have h1 := h [some "a", some "b", some "c"] (by simp)
  have h2 := h [some "x"] (by simp)
  simp at h1 h2
  omega

/-- C1 (amended): every grid encoded by the header-row pipeline (`sendCsv`)
is rectangular — with and without null-header suppression — but in raw mode
(`sendRawCsv`) the data rows are passed through unpadded after the generated
header row, so the raw grid need not be rectangular. -/
theorem normalizer_rectangularity_amended :
    (∀ (slicedRows : List Row) (colCount : Nat) (allow : Bool),
        ∃ k, ∀ row ∈ (if allow then slicedRows.map (normalizeRow colCount)
            else removeInvalidHeaders (slicedRows.map (normalizeRow colCount))),
          row.length = k)
    ∧ (∀ rows : List Row, rawGrid rows = rawHeaders (maxCols rows) :: rows) := by
  constructor
  · intro slicedRows colCount allow
    cases allow with
    | true =>
      refine ⟨colCount, fun row hr => ?_⟩
      simp only [if_pos rfl] at hr
      obtain ⟨orig, _, rfl⟩ := List.mem_map.mp (by simpa using hr)
      exact normalizeRow_length colCount orig
    | false =>
      simp only [Bool.false_eq_true, if_false]
      cases hmap : slicedRows.map (normalizeRow colCount) with
      | nil => exact ⟨0, fun row hr => by simp [removeInvalidHeaders] at hr⟩
      | cons hdr more =>
        exact ⟨(indicesToKeep hdr).length,
          fun row hr => removeInvalidHeaders_row_length hdr more row hr⟩
  · intro rows
    rfl

/-- C1 (witness for the amended theorem). -/
theorem normalizer_rectangularity_witness :
    ∃ k, ∀ row ∈ (if false then [[some "a"], [some "b", some "c"]].map (normalizeRow 1)
        else removeInvalidHeaders ([[some "a"], [some "b", some "c"]].map (normalizeRow 1))),
      row.length = k :=
  normalizer_rectangularity_amended.1 [[some "a"], [some "b", some "c"]] 1 false

/-- C2 (counterexample): raw mode does not right-pad the data rows: on
`[["a","b","c"],["x"]]` it produces `[["A","B","C"],["a","b","c"],["x"]]`,
not the padded `[["A","B","C"],["a","b","c"],["x","",""]]` the claim
requires. -/
theorem rawMode_no_padding_counterexample :
    rawGrid [[some "a", some "b", some "c"], [some "x"]] =
      [[some "A", some "B", some "C"], [some "a", some "b", some "c"], [some "x"]]
    ∧ rawGrid [[some "a", some "b", some "c"], [some "x"]] ≠
      [[some "A", some "B", some "C"], [some "a", some "b", some "c"],
        [some "x", some "", some ""]] := by
  exact ⟨by decide, by decide⟩

/-- C2 (amended): in raw mode, for every non-empty input, the output is the
input with a synthetic header row prepended whose cells are the bijective
base-26 column labels (0 ↦ "A", 25 ↦ "Z", 26 ↦ "AA") for exactly the
maximum observed row length — but the data rows are passed through
unchanged, not right-padded; in particular `[["a","b","c"],["x"]]` yields
header `["A","B","C"]` and rows `[["a","b","c"],["x"]]`. -/
theorem rawMode_output_amended :
    (∀ rows : List Row, rows ≠ [] →
        sendRawCsv rows = .ok (csvContent (rawHeaders (maxCols rows) :: rows)))
    ∧ (∀ m, (rawHeaders m).length = m)
    ∧ (∀ m i, i < m → (rawHeaders m).getD i none = some (getColumnName i))
    ∧ getColumnName 0 = "A" ∧ getColumnName 25 = "Z" ∧ getColumnName 26 = "AA"
    ∧ sendRawCsv [[some "a", some "b", some "c"], [some "x"]] = .ok "A,B,C\na,b,c\nx" := by
  refine ⟨?_, ?_, ?_, by decide, by decide, by decide, by decide⟩
  · intro rows h
    have hlen : ¬rows.length = 0 := by
      simpa [List.length_eq_zero] using h
    simp [sendRawCsv, rawGrid, hlen]
  · intro m
    simp [rawHeaders]
  · intro m i hi
    simp [rawHeaders, List.getD_eq_getElem?_getD, List.getElem?_map, List.getElem?_range hi]

/-- C2 (witness for the amended theorem). -/
theorem rawMode_output_witness :
    sendRawCsv [[some "a"]] = .ok (csvContent (rawHeaders (maxCols [[some "a"]]) :: [[some "a"]]))
    ∧ (rawHeaders 3).getD 2 none = some (getColumnName 2) :=
  ⟨rawMode_output_amended.1 [[some "a"]] (by decide),
   rawMode_output_amended.2.2.1 3 2 (by decide)⟩

theorem indicesToKeep_projection (l : Row) :
    (indicesToKeep l).map (fun i => l.getD i (some "")) = l.filter validHeaderCell := by
  unfold indicesToKeep
  induction l with
  | nil => rfl
  | cons c t ih =>
    rw [List.length_cons, List.range_succ_eq_map, List.filter_cons]
    simp only [List.getD_cons_zero, List.getD_cons_succ, List.filter_map, Function.comp_def]
    by_cases hc : validHeaderCell c
    · simpa [hc, List.map_map, Function.comp_def, List.getD_eq_getElem?_getD] using ih
    · simpa [hc, List.map_map, Function.comp_def, List.getD_eq_getElem?_getD] using ih

theorem sendCsv_header_eq (rows : List Row) (n : Nat) (hdr : Row) (rest : List Row)
    (allow : Bool) (h1 : 1 ≤ n) (h2 : n ≤ rows.length)
    (h3 : rows.drop (n - 1) = hdr :: rest) :
    sendCsv rows (some (n : Int)) allow =
      .ok (csvContent (if allow then (hdr :: rest).map (normalizeRow hdr.length)
        else removeInvalidHeaders ((hdr :: rest).map (normalizeRow hdr.length)))) := by
  have hlen : ¬rows.length = 0 := by omega
  have hgt : jsGt (some (n : Int)) (Int.ofNat rows.length) = false := by
    simp [jsGt]
    omega
  have hstart : jsSliceStart rows.length (some ((n : Int) - 1)) = n - 1 := by
    have hneg : ¬((n : Int) - 1 < 0) := by omega
    simp only [jsSliceStart, if_neg hneg]
    have ht : ((n : Int) - 1).toNat = n - 1 := by omega
    rw [ht]
    exact Nat.min_eq_left (by omega)
  simp only [sendCsv, if_neg hlen, hgt, Bool.false_eq_true, if_false, Option.map_some']
  rw [hstart, h3]

theorem sendCsv_nan_not_clientError (rows : List Row) (allow : Bool) :
    (sendCsv rows none allow).isClientError = false := by
  rcases rows with _ | ⟨r, rs⟩
  · rfl
  · simp only [sendCsv, jsGt, jsSliceStart, List.length_cons, Option.map_none']
    have : ¬(rs.length + 1 = 0) := by omega
    rw [if_neg this]
    simp [SendResult.isClientError]

theorem sendCsv_clientError_iff (rows : List Row) (headerRow : JsNum) (allow : Bool) :
    (sendCsv rows headerRow allow).isClientError = true ↔
      (rows ≠ [] ∧ jsGt headerRow (Int.ofNat rows.length) = true) := by
  by_cases h0 : rows.length = 0
  · have he : rows = [] := List.length_eq_zero.mp h0
    subst he
    simp [sendCsv, SendResult.isClientError]
  · have hne : rows ≠ [] := fun h => h0 (by simp [h])
    by_cases hgt : jsGt headerRow (Int.ofNat rows.length) = true
    · unfold sendCsv
      rw [if_neg h0, if_pos hgt]
      simp only [SendResult.isClientError, true_iff, iff_true]
      exact ⟨hne, hgt⟩
    · unfold sendCsv
      rw [if_neg h0, if_neg hgt]
      dsimp only
      cases hd : rows.drop (jsSliceStart rows.length (Option.map (fun i => i - 1) headerRow)) with
      | nil =>
        simp only [SendResult.isClientError, Bool.false_eq_true, false_iff, not_and]
        intro
        simpa using hgt
      | cons first rest =>
        simp only [SendResult.isClientError, Bool.false_eq_true, false_iff, not_and]
        intro
        simpa using hgt

theorem sendCsv_out_of_range (rows : List Row) (n : Int) (allow : Bool)
    (h1 : rows ≠ []) (h2 : n > (rows.length : Int)) :
    sendCsv rows (some n) allow = .clientError 400 (rangeErrorMsg n rows.length) := by
  have h0 : ¬rows.length = 0 := fun h => h1 (List.length_eq_zero.mp h)
  have hgt : jsGt (some n) (Int.ofNat rows.length) = true := by
    simp only [jsGt, decide_eq_true_eq]
    exact_mod_cast h2
  unfold sendCsv
  rw [if_neg h0, if_pos hgt]

/-- C6 (claim): in header-row mode, for every non-empty row set and in-range
headerRow `n`, the rows preceding row `n` (1-based) are discarded, the
column count is fixed to the chosen header row's length, and every
remaining row is truncated or right-padded with empty cells to exactly that
count; headerRow=2 on `[["junk"],["h1","h2"],["v1","v2","v3"]]` discards
row 0, uses `["h1","h2"]` as header and truncates the last row to
`["v1","v2"]`. -/
theorem header_mode_normalization :
    (∀ (rows : List Row) (n : Nat) (hdr : Row) (rest : List Row) (allow : Bool),
        1 ≤ n → n ≤ rows.length → rows.drop (n - 1) = hdr :: rest →
        sendCsv rows (some (n : Int)) allow =
          .ok (csvContent (if allow then (hdr :: rest).map (normalizeRow hdr.length)
            else removeInvalidHeaders ((hdr :: rest).map (normalizeRow hdr.length)))))
    ∧ (∀ (colCount : Nat) (row : Row), (normalizeRow colCount row).length = colCount)
    ∧ sendCsv [[some "junk"], [some "h1", some "h2"], [some "v1", some "v2", some "v3"]]
        (some 2) false = .ok "h1,h2\nv1,v2" :=
  ⟨fun rows n hdr rest allow h1 h2 h3 => sendCsv_header_eq rows n hdr rest allow h1 h2 h3,
   normalizeRow_length, by decide⟩

/-- C6 (witness). -/
theorem header_mode_normalization_witness :
    sendCsv [[some "junk"], [some "h1", some "h2"], [some "v1", some "v2", some "v3"]]
        (some 2) true =
      .ok (csvContent (if true then
          [[some "h1", some "h2"], [some "v1", some "v2", some "v3"]].map (normalizeRow 2)
        else removeInvalidHeaders
          ([[some "h1", some "h2"], [some "v1", some "v2", some "v3"]].map (normalizeRow 2)))) :=
  header_mode_normalization.1
    [[some "junk"], [some "h1", some "h2"], [some "v1", some "v2", some "v3"]] 2
    [some "h1", some "h2"] [[some "v1", some "v2", some "v3"]] true
    (by decide) (by decide) (by decide)

/-- C7 (claim): with null-header suppression active, every column whose
header cell is `""`, `"#N/A"` or `"#REF!"` is removed from every row
including the header row; the kept positions are computed once from the
header row and applied uniformly (so the output header is the filtered
header and every output row has one cell per kept position); header
`["h1","","h2","#N/A"]` with data row `["a","b","c","d"]` yields header
`["h1","h2"]` and row `["a","c"]`, also through the `sendCsv` pipeline with
suppression on. -/
theorem null_header_suppression :
    (∀ (header : Row) (rest : List Row),
        removeInvalidHeaders (header :: rest) =
          (header :: rest).map (fun row => (indicesToKeep header).map
            (fun index => row.getD index (some ""))))
    ∧ (∀ header : Row, (indicesToKeep header).map (fun i => header.getD i (some "")) =
        header.filter validHeaderCell)
    ∧ (∀ (header : Row) (rest : List Row) (row : Row),
        row ∈ removeInvalidHeaders (header :: rest) →
        row.length = (indicesToKeep header).length)
    ∧ removeInvalidHeaders
        [[some "h1", some "", some "h2", some "#N/A"], [some "a", some "b", some "c", some "d"]]
        = [[some "h1", some "h2"], [some "a", some "c"]]
    ∧ sendCsv [[some "h1", some "", some "h2", some "#N/A"],
        [some "a", some "b", some "c", some "d"]] (some 1) false = .ok "h1,h2\na,c" :=
  ⟨removeInvalidHeaders_cons, indicesToKeep_projection, removeInvalidHeaders_row_length,
   by decide, by decide⟩

/-- C7 (witness). -/
theorem null_header_suppression_witness :
    ([some "h1", some "h2"] : Row).length =
      (indicesToKeep [some "h1", some "", some "h2", some "#N/A"]).length :=
  null_header_suppression.2.2.1 [some "h1", some "", some "h2", some "#N/A"]
    [[some "a", some "b", some "c", some "d"]] [some "h1", some "h2"] (by decide)

/-- C8 (counterexample): an unparseable `headerRow` does not yield a client
error: `parseInt("abc", 10)` is `NaN`, `NaN > rows.length` is false, and the
request succeeds (slicing from the first row), so
`handleTabular [["x"]] (some "abc")` answers `200 "x"`, not a 400. -/
theorem unparseable_headerRow_counterexample :
    parseIntJs "abc" = none
    ∧ handleTabular [[some "x"]] (some "abc") none = .ok "x" :=
  ⟨by decide, by decide⟩

/-- C8 (amended): the tabular handler never rejects an unparseable
`headerRow` — `parseInt` yields `NaN`, which fails the only validation
(`headerRow > rows.length`), so the request proceeds as a success; the only
headerRow validation is the out-of-range-above check: a parsed `headerRow`
greater than the total row count yields a 400 naming the valid range
`1..rows.length`. -/
theorem headerRow_validation_amended :
    (∀ (rows : List Row) (s : String) (allowParam : Option String),
        parseIntJs s = none → s ≠ "" →
        handleTabular rows (some s) allowParam = sendCsv rows none (allowParam == some "1")
        ∧ (handleTabular rows (some s) allowParam).isClientError = false)
    ∧ (∀ (rows : List Row) (n : Int) (allow : Bool),
        rows ≠ [] → n > (rows.length : Int) →
        sendCsv rows (some n) allow = .clientError 400 (rangeErrorMsg n rows.length)) := by
  constructor
  · intro rows s allowParam h1 h2
    have hp : parseHeaderRowParam (some s) = none := by
      simp [parseHeaderRowParam, h2, h1]
    unfold handleTabular
    rw [hp]
    exact ⟨rfl, sendCsv_nan_not_clientError rows (allowParam == some "1")⟩
  · exact sendCsv_out_of_range

/-- C8 (witness). -/
theorem headerRow_validation_witness :
    (handleTabular [[some "x"]] (some "abc") none).isClientError = false
    ∧ sendCsv [[some "x"]] (some 5) false = .clientError 400 (rangeErrorMsg 5 1) :=
  ⟨(headerRow_validation_amended.1 [[some "x"]] "abc" none (by decide) (by decide)).2,
   headerRow_validation_amended.2 [[some "x"]] 5 false (by decide) (by decide)⟩

/-- C10 (claim): the emptiness check of `sendCsv` precedes the range check —
an empty row set yields a successful empty CSV for every headerRow value,
in or out of range — and the out-of-range client error is raised if and
only if the row set is non-empty and `headerRow > rows.length` (in the JS
sense, so never for `NaN`). -/
theorem empty_rows_precede_range_check :
    (∀ (headerRow : JsNum) (allow : Bool), sendCsv [] headerRow allow = .ok "")
    ∧ (∀ (rows : List Row) (headerRow : JsNum) (allow : Bool),
        (sendCsv rows headerRow allow).isClientError = true ↔
          (rows ≠ [] ∧ jsGt headerRow (Int.ofNat rows.length) = true)) :=
  ⟨fun _ _ => rfl, sendCsv_clientError_iff⟩

/-- C10 (witness). -/
theorem empty_rows_precede_range_check_witness :
    sendCsv [] (some 100) false = .ok ""
    ∧ (sendCsv [[some "x"]] (some 5) false).isClientError = true :=
  ⟨empty_rows_precede_range_check.1 (some 100) false,
   (empty_rows_precede_range_check.2 [[some "x"]] (some 5) false).mpr ⟨by decide, by decide⟩⟩

theorem foldl_chunk_events (chunks : List (List Nat)) (s : DownloadState)
    (h1 : s.aborted = false) (h2 : s.writeComplete = false) :
    (chunks.map StreamEvent.chunk).foldl stepDownload s =
      { s with clientChunks := s.clientChunks ++ chunks,
               cacheChunks := s.cacheChunks ++ chunks } := by
  induction chunks generalizing s with
  | nil => simp
  | cons c cs ih =>
    simp only [List.map_cons, List.foldl_cons]
    rw [show stepDownload s (.chunk c) =
        { s with clientChunks := s.clientChunks ++ [c], cacheChunks := s.cacheChunks ++ [c] } from by
      simp [stepDownload, h1, h2]]
    rw [ih _ (by simp [h1]) (by simp [h2])]
    simp

theorem runDownload_error (chunks : List (List Nat)) :
    runDownload (chunks.map StreamEvent.chunk ++ [StreamEvent.streamError]) =
      { lockExists := false, cacheFileExists := true, cacheChunks := chunks,
        writeComplete := false, clientChunks := chunks, responseStatus := some 500,
        aborted := true } := by
  unfold runDownload
  rw [List.foldl_append, foldl_chunk_events chunks initialDownloadState rfl rfl]
  simp [stepDownload, initialDownloadState]

/-- C3 (counterexample): after a remote-stream error mid-download the lock
file is gone, the response is a 500, both branches are dead — but the
partially written cache file is still on disk and the write never
completed, so a later request (lock absent, cache file present) is routed
to serve the partial file from cache: the lock was removed by the error
handler, not by a completed write, and cache-without-lock does not imply a
complete download. -/
theorem streamError_partial_cache_counterexample :
    (runDownload [.chunk [104, 105], .streamError]).lockExists = false
    ∧ (runDownload [.chunk [104, 105], .streamError]).writeComplete = false
    ∧ (runDownload [.chunk [104, 105], .streamError]).cacheFileExists = true
    ∧ (runDownload [.chunk [104, 105], .streamError]).cacheChunks = [[104, 105]]
    ∧ (runDownload [.chunk [104, 105], .streamError]).responseStatus = some 500
    ∧ laterRequestAction (runDownload [.chunk [104, 105], .streamError]).lockExists
        (runDownload [.chunk [104, 105], .streamError]).cacheFileExists = .serveFromCache := by
  refine ⟨by decide, by decide, by decide, by decide, by decide, by decide⟩

/-- C3 (amended): on a remote-stream error after any number of delivered
chunks, both consumer branches are aborted (further chunks are ignored),
the lock marker is deleted and the request fails with a 500 — but the
partial cache file is left on disk with the chunks received so far and the
write-complete signal never fired, so a later request finding the cache
file without the lock serves the partial download as if it were valid. -/
theorem streamError_behavior_amended (chunks : List (List Nat)) :
    runDownload (chunks.map StreamEvent.chunk ++ [StreamEvent.streamError]) =
      { lockExists := false, cacheFileExists := true, cacheChunks := chunks,
        writeComplete := false, clientChunks := chunks, responseStatus := some 500,
        aborted := true }
    ∧ (∀ d, stepDownload
        (runDownload (chunks.map StreamEvent.chunk ++ [StreamEvent.streamError])) (.chunk d) =
        runDownload (chunks.map StreamEvent.chunk ++ [StreamEvent.streamError]))
    ∧ laterRequestAction
        (runDownload (chunks.map StreamEvent.chunk ++ [StreamEvent.streamError])).lockExists
        (runDownload (chunks.map StreamEvent.chunk ++ [StreamEvent.streamError])).cacheFileExists
        = .serveFromCache := by
  refine ⟨runDownload_error chunks, ?_, ?_⟩
  · intro d
    rw [runDownload_error chunks]
    simp [stepDownload]
  · rw [runDownload_error chunks]
    simp [laterRequestAction]

theorem runWait_resolved_noLock (trace : List LockFsState) (i : Nat)
    (outcome : WaitOutcome) (post : LockFsState)
    (h : runWait trace i = (outcome, post))
    (ho : outcome = .resolvedNoLock ∨ outcome = .resolvedStaleRemoved) :
    post.lockExists = false := by
  induction trace generalizing i with
  | nil =>
    rcases ho with rfl | rfl <;> simp [runWait] at h
  | cons fsState rest ih =>
    by_cases hl : fsState.lockExists
    · by_cases hage : fsState.lockAgeMs > 30000
      · have hstep : waitCheckStep (500 * i) fsState = .resolvedStaleRemoved := by
          simp [waitCheckStep, hl, hage]
        rw [runWait, hstep] at h
        rw [Prod.mk.injEq] at h
        obtain ⟨h1', h2'⟩ := h
        rw [← h2']
      · by_cases htime : 500 * i > 30000
        · have hstep : waitCheckStep (500 * i) fsState = .rejectedTimeout := by
            simp [waitCheckStep, hl, hage, htime]
          rw [runWait, hstep] at h
          rw [Prod.mk.injEq] at h
          obtain ⟨h1', h2'⟩ := h
          rcases ho with rfl | rfl <;> simp at h1'
        · have hstep : waitCheckStep (500 * i) fsState = .stillPolling := by
            simp [waitCheckStep, hl, hage, htime]
          rw [runWait, hstep] at h
          exact ih (i + 1) h
    · have hstep : waitCheckStep (500 * i) fsState = .resolvedNoLock := by
        simp [waitCheckStep, hl]
      rw [runWait, hstep] at h
      rw [Prod.mk.injEq] at h
      obtain ⟨h1', h2'⟩ := h
      rw [← h2']
      simpa using hl

theorem driveLockWaitBranch_resolved (trace : List LockFsState)
    (outcome : WaitOutcome) (post : LockFsState)
    (h : runWait trace 0 = (outcome, post))
    (ho : outcome = .resolvedNoLock ∨ outcome = .resolvedStaleRemoved) :
    driveLockWaitBranch trace = .serveFromCache := by
  have hpost : post.lockExists = false := runWait_resolved_noLock trace 0 outcome post h ho
  unfold driveLockWaitBranch
  rw [h]
  rcases ho with rfl | rfl <;> simp [hpost]

theorem driveLockWaitBranch_rejected (trace : List LockFsState) (post : LockFsState)
    (h : runWait trace 0 = (.rejectedTimeout, post))
    (hc : post.cacheFileExists = false) :
    driveLockWaitBranch trace = .freshDownload := by
  unfold driveLockWaitBranch
  rw [h]
  simp [hc]

theorem runWait_stale_head (fsState : LockFsState) (rest : List LockFsState)
    (h1 : fsState.lockExists = true) (h2 : fsState.lockAgeMs > 30000) :
    runWait (fsState :: rest) 0 = (.resolvedStaleRemoved, { fsState with lockExists := false }) := by
  have hstep : waitCheckStep (500 * 0) fsState = .resolvedStaleRemoved := by
    simp [waitCheckStep, h1, h2]
  rw [runWait, hstep]

/-- C4 (counterexample): a stale lock (31 s old) with no cache file on disk
is removed by the waiter, but then — contrary to the claim — no fresh
download proceeds and no cache re-check happens: the handler sees the lock
absent and serves the (nonexistent) cache file path. -/
theorem staleLock_serves_cache_counterexample :
    runWait [{ lockExists := true, lockAgeMs := 31000, cacheFileExists := false }] 0 =
      (.resolvedStaleRemoved, { lockExists := false, lockAgeMs := 31000, cacheFileExists := false })
    ∧ driveLockWaitBranch [{ lockExists := true, lockAgeMs := 31000, cacheFileExists := false }]
        = .serveFromCache
    ∧ driveLockWaitBranch [{ lockExists := true, lockAgeMs := 31000, cacheFileExists := false }]
        ≠ .freshDownload := by
  refine ⟨by decide, by decide, by decide⟩

/-- C4 (amended): a request that finds a fresh lock polls every 500 ms
while it stays fresh and resolves as soon as the lock disappears — but
after the wait the handler serves the cache file path whenever the lock is
absent, without re-checking that the cache entry exists; a lock older than
the 30 s threshold is removed by the waiter, after which the handler again
serves the cache path rather than starting a fresh download; a fresh
download proceeds only when the wait timed out and the cache file is
absent. -/
theorem lockWait_behavior_amended :
    (∀ (elapsedMs : Nat) (fsState : LockFsState),
        fsState.lockExists = true → fsState.lockAgeMs ≤ 30000 → elapsedMs ≤ 30000 →
        waitCheckStep elapsedMs fsState = .stillPolling)
    ∧ (∀ (elapsedMs : Nat) (fsState : LockFsState), fsState.lockExists = false →
        waitCheckStep elapsedMs fsState = .resolvedNoLock)
    ∧ (∀ (trace : List LockFsState) (outcome : WaitOutcome) (post : LockFsState),
        runWait trace 0 = (outcome, post) →
        outcome = .resolvedNoLock ∨ outcome = .resolvedStaleRemoved →
        driveLockWaitBranch trace = .serveFromCache)
    ∧ (∀ (fsState : LockFsState) (rest : List LockFsState),
        fsState.lockExists = true → fsState.lockAgeMs > 30000 →
        runWait (fsState :: rest) 0 =
          (.resolvedStaleRemoved, { fsState with lockExists := false })
        ∧ driveLockWaitBranch (fsState :: rest) = .serveFromCache)
    ∧ (∀ (trace : List LockFsState) (post : LockFsState),
        runWait trace 0 = (.rejectedTimeout, post) → post.cacheFileExists = false →
        driveLockWaitBranch trace = .freshDownload) := by
  refine ⟨?_, ?_, driveLockWaitBranch_resolved, ?_, driveLockWaitBranch_rejected⟩
  · intro elapsedMs fsState h1 h2 h3
    unfold waitCheckStep
    rw [if_neg (by simp [h1]), if_neg (by omega), if_neg (by omega)]
  · intro elapsedMs fsState h1
    simp [waitCheckStep, h1]
  · intro fsState rest h1 h2
    have hr := runWait_stale_head fsState rest h1 h2
    exact ⟨hr, driveLockWaitBranch_resolved (fsState :: rest) _ _ hr (Or.inr rfl)⟩

/-- C4 (witness). -/
theorem lockWait_behavior_witness :
    waitCheckStep 1000 { lockExists := true, lockAgeMs := 2000, cacheFileExists := false }
      = .stillPolling
    ∧ driveLockWaitBranch
        [{ lockExists := true, lockAgeMs := 2000, cacheFileExists := false },
         { lockExists := false, lockAgeMs := 0, cacheFileExists := false }] = .serveFromCache :=
  ⟨lockWait_behavior_amended.1 1000
      { lockExists := true, lockAgeMs := 2000, cacheFileExists := false }
      (by decide) (by decide) (by decide),
   lockWait_behavior_amended.2.2.1
      [{ lockExists := true, lockAgeMs := 2000, cacheFileExists := false },
       { lockExists := false, lockAgeMs := 0, cacheFileExists := false }]
      WaitOutcome.resolvedNoLock
      { lockExists := false, lockAgeMs := 0, cacheFileExists := false }
      (by decide) (Or.inl rfl)⟩

theorem step_A_start_lock (content : List Nat) (s : CoordState) (st : Bool)
    (hp : s.phaseA = .start) (hl : s.lockExists = true) :
    stepCoord content s (.reqA, st) = { s with phaseA := .waiting } := by
  simp [stepCoord, stepRequest, hp, hl]

theorem step_A_start_cache (content : List Nat) (s : CoordState) (st : Bool) (c : List Nat)
    (hp : s.phaseA = .start) (hl : s.lockExists = false) (hc : s.cacheFile = some c) :
    stepCoord content s (.reqA, st) = { s with phaseA := .served c } := by
  simp [stepCoord, stepRequest, hp, hl, hc]

theorem step_A_start_dl (content : List Nat) (s : CoordState) (st : Bool)
    (hp : s.phaseA = .start) (hl : s.lockExists = false) (hc : s.cacheFile = none) :
    stepCoord content s (.reqA, st) =
      { s with phaseA := .downloading, lockExists := true, cacheFile := some [],
               downloadCount := s.downloadCount + 1 } := by
  simp [stepCoord, stepRequest, hp, hl, hc]

theorem step_A_wait_fresh (content : List Nat) (s : CoordState)
    (hp : s.phaseA = .waiting) (hl : s.lockExists = true) :
    stepCoord content s (.reqA, false) = s := by
  cases s
  simp_all [stepCoord, stepRequest]

theorem step_A_wait_serve (content : List Nat) (s : CoordState) (st : Bool)
    (hp : s.phaseA = .waiting) (hcond : (s.lockExists && !st) = false) :
    stepCoord content s (.reqA, st) =
      { s with phaseA := .served (s.cacheFile.getD []), lockExists := false } := by
  simp [stepCoord, stepRequest, hp, hcond]

theorem step_A_downloading (content : List Nat) (s : CoordState) (st : Bool)
    (hp : s.phaseA = .downloading) :
    stepCoord content s (.reqA, st) =
      { s with phaseA := .flushed, cacheFile := some content } := by
  simp [stepCoord, stepRequest, hp]

theorem step_A_flushed (content : List Nat) (s : CoordState) (st : Bool)
    (hp : s.phaseA = .flushed) :
    stepCoord content s (.reqA, st) =
      { s with phaseA := .downloadedDone content, lockExists := false } := by
  simp [stepCoord, stepRequest, hp]

theorem step_A_served (content : List Nat) (s : CoordState) (st : Bool) (b : List Nat)
    (hp : s.phaseA = .served b) :
    stepCoord content s (.reqA, st) = s := by
  cases s
  simp_all [stepCoord, stepRequest]

theorem step_A_done (content : List Nat) (s : CoordState) (st : Bool) (b : List Nat)
    (hp : s.phaseA = .downloadedDone b) :
    stepCoord content s (.reqA, st) = s := by
  cases s
  simp_all [stepCoord, stepRequest]

theorem stepCoord_swap (content : List Nat) (s : CoordState) (st : Bool) :
    stepCoord content (swapCoord s) (.reqA, st) = swapCoord (stepCoord content s (.reqB, st)) := rfl

theorem swapCoord_swapCoord (s : CoordState) : swapCoord (swapCoord s) = s := rfl

theorem coordSafe_swap (s : CoordState) (h : CoordSafe s) : CoordSafe (swapCoord s) := by
  obtain ⟨h1, h2, h3, h4, h5, h6, h7, h8, h9⟩ := h
  exact ⟨by simpa [swapCoord, Bool.and_comm] using h1,
    by simpa [swapCoord, Bool.and_comm] using h2,
    by simpa [swapCoord, Nat.add_comm] using h3,
    by simpa [swapCoord, Bool.or_comm] using h4,
    by simpa [swapCoord, Bool.or_comm] using h5,
    by simpa [swapCoord, Bool.or_comm] using h7,
    by simpa [swapCoord, Bool.or_comm] using h6,
    by simpa [swapCoord, Bool.or_comm] using h9,
    by simpa [swapCoord, Bool.or_comm] using h8⟩

theorem coordClean_swap (content : List Nat) (s : CoordState) (h : CoordClean content s) :
    CoordClean content (swapCoord s) := by
  obtain ⟨h1, h2, h3, h4, h5, h6, h7, h8, h9, h10, h11⟩ := h
  exact ⟨by simpa [swapCoord, Bool.or_comm] using h1,
    by simpa [swapCoord, Bool.and_comm] using h2,
    by simpa [swapCoord, Bool.or_comm] using h3,
    by simpa [swapCoord, Bool.or_comm] using h4,
    by simpa [swapCoord, Bool.or_comm] using h5,
    by simpa [swapCoord, Bool.or_comm] using h7,
    by simpa [swapCoord, Bool.or_comm] using h6,
    h9, h8, h11, h10⟩

theorem coordSafe_init : CoordSafe initCoord := by
  refine ⟨rfl, rfl, rfl, by simp [initCoord, ReqPhase.startedDownload], ?_, ?_, ?_, ?_, ?_⟩ <;>
    simp [initCoord]

theorem coordClean_init (content : List Nat) : CoordClean content initCoord := by
  refine ⟨rfl, rfl, ?_, ?_, ?_, ?_, ?_, ?_, ?_, ?_, ?_⟩ <;>
    simp [initCoord, ReqPhase.wroteCache]

set_option maxHeartbeats 1000000 in
theorem coordSafe_step_A (content : List Nat) (s : CoordState) (st : Bool)
    (h : CoordSafe s) : CoordSafe (stepCoord content s (.reqA, st)) := by
  obtain ⟨h1, h2, h3, h4, h5, h6, h7, h8, h9⟩ := h
  cases hpA : s.phaseA with
  | start =>
    by_cases hl : s.lockExists = true
    · rw [step_A_start_lock content s st hpA hl]
      refine ⟨?_, ?_, ?_, ?_, ?_, ?_, ?_, ?_, ?_⟩ <;>
        (try simp_all [ReqPhase.inFlight, ReqPhase.startedDownload]) <;>
        (try (cases hpB : s.phaseB <;>
          simp_all [ReqPhase.inFlight, ReqPhase.startedDownload]))
    · replace hl : s.lockExists = false := by simpa using hl
      rcases hc : s.cacheFile with _ | c
      · rw [step_A_start_dl content s st hpA hl hc]
        refine ⟨?_, ?_, ?_, ?_, ?_, ?_, ?_, ?_, ?_⟩ <;>
          (try simp_all [ReqPhase.inFlight, ReqPhase.startedDownload]) <;>
          (try (cases hpB : s.phaseB <;>
            simp_all [ReqPhase.inFlight, ReqPhase.startedDownload]))
      · rw [step_A_start_cache content s st c hpA hl hc]
        refine ⟨?_, ?_, ?_, ?_, ?_, ?_, ?_, ?_, ?_⟩ <;>
          (try simp_all [ReqPhase.inFlight, ReqPhase.startedDownload]) <;>
          (try (cases hpB : s.phaseB <;>
            simp_all [ReqPhase.inFlight, ReqPhase.startedDownload]))
  | waiting =>
    by_cases hcond : (s.lockExists && !st) = true
    · obtain ⟨hl, hst⟩ := Bool.and_eq_true_iff.mp hcond
      have hst' : st = false := by simpa using hst
      subst hst'
      rw [step_A_wait_fresh content s hpA hl]
      exact ⟨h1, h2, h3, h4, h5, h6, h7, h8, h9⟩
    · replace hcond : (s.lockExists && !st) = false := by simpa using hcond
      rw [step_A_wait_serve content s st hpA hcond]
      refine ⟨?_, ?_, ?_, ?_, ?_, ?_, ?_, ?_, ?_⟩ <;>
        (try simp_all [ReqPhase.inFlight, ReqPhase.startedDownload]) <;>
        (try (cases hpB : s.phaseB <;>
          simp_all [ReqPhase.inFlight, ReqPhase.startedDownload]))
  | downloading =>
    rw [step_A_downloading content s st hpA]
    refine ⟨?_, ?_, ?_, ?_, ?_, ?_, ?_, ?_, ?_⟩ <;>
      (try simp_all [ReqPhase.inFlight, ReqPhase.startedDownload]) <;>
      (try (cases hpB : s.phaseB <;>
        simp_all [ReqPhase.inFlight, ReqPhase.startedDownload]))
  | flushed =>
    rw [step_A_flushed content s st hpA]
    refine ⟨?_, ?_, ?_, ?_, ?_, ?_, ?_, ?_, ?_⟩ <;>
      (try simp_all [ReqPhase.inFlight, ReqPhase.startedDownload]) <;>
      (try (cases hpB : s.phaseB <;>
        simp_all [ReqPhase.inFlight, ReqPhase.startedDownload]))
  | served b =>
    rw [step_A_served content s st b hpA]
    exact ⟨h1, h2, h3, h4, h5, h6, h7, h8, h9⟩
  | downloadedDone b =>
    rw [step_A_done content s st b hpA]
    exact ⟨h1, h2, h3, h4, h5, h6, h7, h8, h9⟩

set_option maxHeartbeats 1000000 in
theorem coordClean_step_A (content : List Nat) (s : CoordState)
    (h : CoordClean content s) : CoordClean content (stepCoord content s (.reqA, false)) := by
  obtain ⟨h1, h2, h3, h4, h5, h6, h7, h8, h9, h10, h11⟩ := h
  cases hpA : s.phaseA with
  | start =>
    by_cases hl : s.lockExists = true
    · rw [step_A_start_lock content s false hpA hl]
      refine ⟨?_, ?_, ?_, ?_, ?_, ?_, ?_, ?_, ?_, ?_, ?_⟩ <;>
        (try simp_all [ReqPhase.inFlight, ReqPhase.wroteCache]) <;>
        (try exact fun b hb => h9 b hb) <;>
        (try exact fun b hb => h11 b hb) <;>
        (try (cases hpB : s.phaseB <;>
          simp_all [ReqPhase.inFlight, ReqPhase.wroteCache]))
    · replace hl : s.lockExists = false := by simpa using hl
      rcases hc : s.cacheFile with _ | c
      · rw [step_A_start_dl content s false hpA hl hc]
        have hwB : s.phaseB.wroteCache = false := by
          by_contra hw'
          replace hw' : s.phaseB.wroteCache = true := by simpa using hw'
          have := h3 (by simp [hw'])
          rw [hc] at this
          cases this
        have hinB : s.phaseB.inFlight = false := by
          have := h1
          rw [hl, hpA] at this
          simpa [ReqPhase.inFlight] using this.symm
        refine ⟨?_, ?_, ?_, ?_, ?_, ?_, ?_, ?_, ?_, ?_, ?_⟩ <;>
          (try simp_all [ReqPhase.inFlight, ReqPhase.wroteCache]) <;>
          (try exact fun b hb => h9 b hb) <;>
          (try exact fun b hb => h11 b hb) <;>
          (try (cases hpB : s.phaseB <;>
            simp_all [ReqPhase.inFlight, ReqPhase.wroteCache]))
      · rw [step_A_start_cache content s false c hpA hl hc]
        have hnfl : (s.phaseA.inFlight || s.phaseB.inFlight) = false := by
          rw [← h1, hl]
        have hw : (s.phaseA.wroteCache || s.phaseB.wroteCache) = true := by
          by_contra hw'
          replace hw' : (s.phaseA.wroteCache || s.phaseB.wroteCache) = false := by
            simpa using hw'
          have := h5 hw' (by simp [hc])
          rw [hnfl] at this
          cases this
        have hceq : c = content := by
          have hsc := h3 hw
          rw [hc] at hsc
          injection hsc
        refine ⟨?_, ?_, ?_, ?_, ?_, ?_, ?_, ?_, ?_, ?_, ?_⟩ <;>
          (try simp_all [ReqPhase.inFlight, ReqPhase.wroteCache]) <;>
          (try exact fun b hb => h9 b hb) <;>
          (try exact fun b hb => h11 b hb) <;>
          (try (cases hpB : s.phaseB <;>
            simp_all [ReqPhase.inFlight, ReqPhase.wroteCache]))
  | waiting =>
    by_cases hl : s.lockExists = true
    · rw [step_A_wait_fresh content s hpA hl]
      exact ⟨h1, h2, h3, h4, h5, h6, h7, h8, h9, h10, h11⟩
    · replace hl : s.lockExists = false := by simpa using hl
      rw [step_A_wait_serve content s false hpA (by simp [hl])]
      have hw : (s.phaseA.wroteCache || s.phaseB.wroteCache) = true := by
        rcases h6 hpA with h | h
        · rw [hl] at h
          cases h
        · exact h
      have hcc : s.cacheFile = some content := h3 hw
      have hinB : s.phaseB.inFlight = false := by
        have := h1
        rw [hl, hpA] at this
        simpa [ReqPhase.inFlight] using this.symm
      rw [hcc]
      refine ⟨?_, ?_, ?_, ?_, ?_, ?_, ?_, ?_, ?_, ?_, ?_⟩ <;>
        (try simp_all [ReqPhase.inFlight, ReqPhase.wroteCache]) <;>
        (try exact fun b hb => h9 b hb) <;>
        (try exact fun b hb => h11 b hb) <;>
        (try (cases hpB : s.phaseB <;>
          simp_all [ReqPhase.inFlight, ReqPhase.wroteCache]))
  | downloading =>
    rw [step_A_downloading content s false hpA]
    have hlt : s.lockExists = true := by
      rw [h1, hpA]
      simp [ReqPhase.inFlight]
    refine ⟨?_, ?_, ?_, ?_, ?_, ?_, ?_, ?_, ?_, ?_, ?_⟩ <;>
      (try simp_all [ReqPhase.inFlight, ReqPhase.wroteCache]) <;>
      (try exact fun b hb => h9 b hb) <;>
      (try exact fun b hb => h11 b hb) <;>
      (try (cases hpB : s.phaseB <;>
        simp_all [ReqPhase.inFlight, ReqPhase.wroteCache]))
  | flushed =>
    rw [step_A_flushed content s false hpA]
    have hcc : s.cacheFile = some content := by
      refine h3 ?_
      rw [hpA]
      simp [ReqPhase.wroteCache]
    refine ⟨?_, ?_, ?_, ?_, ?_, ?_, ?_, ?_, ?_, ?_, ?_⟩ <;>
      (try simp_all [ReqPhase.inFlight, ReqPhase.wroteCache]) <;>
      (try exact fun b hb => h9 b hb) <;>
      (try exact fun b hb => h11 b hb) <;>
      (try (cases hpB : s.phaseB <;>
        simp_all [ReqPhase.inFlight, ReqPhase.wroteCache]))
  | served b =>
    rw [step_A_served content s false b hpA]
    exact ⟨h1, h2, h3, h4, h5, h6, h7, h8, h9, h10, h11⟩
  | downloadedDone b =>
    rw [step_A_done content s false b hpA]
    exact ⟨h1, h2, h3, h4, h5, h6, h7, h8, h9, h10, h11⟩

theorem coordSafe_step (content : List Nat) (s : CoordState) (ev : Requester × Bool)
    (h : CoordSafe s) : CoordSafe (stepCoord content s ev) := by
  obtain ⟨who, st⟩ := ev
  cases who with
  | reqA => exact coordSafe_step_A content s st h
  | reqB =>
    have hstep := coordSafe_step_A content (swapCoord s) st (coordSafe_swap s h)
    rw [stepCoord_swap] at hstep
    have hback := coordSafe_swap _ hstep
    rwa [swapCoord_swapCoord] at hback

theorem coordClean_step (content : List Nat) (s : CoordState) (ev : Requester × Bool)
    (hst : ev.2 = false) (h : CoordClean content s) :
    CoordClean content (stepCoord content s ev) := by
  obtain ⟨who, st⟩ := ev
  cases hst
  cases who with
  | reqA => exact coordClean_step_A content s h
  | reqB =>
    have hstep := coordClean_step_A content (swapCoord s) (coordClean_swap content s h)
    rw [stepCoord_swap] at hstep
    have hback := coordClean_swap content _ hstep
    rwa [swapCoord_swapCoord] at hback

theorem coordSafe_run (content : List Nat) (sched : List (Requester × Bool)) :
    CoordSafe (runCoord content sched) := by
  unfold runCoord
  have hgen : ∀ s : CoordState, CoordSafe s →
      CoordSafe (sched.foldl (stepCoord content) s) := by
    induction sched with
    | nil => exact fun s hs => hs
    | cons ev rest ih =>
      intro s hs
      rw [List.foldl_cons]
      exact ih (stepCoord content s ev) (coordSafe_step content s ev hs)
  exact hgen initCoord coordSafe_init

theorem coordClean_run (content : List Nat) (sched : List (Requester × Bool))
    (hclean : cleanSched sched) : CoordClean content (runCoord content sched) := by
  unfold runCoord
  have hgen : ∀ (sched' : List (Requester × Bool)), cleanSched sched' →
      ∀ s : CoordState, CoordClean content s →
      CoordClean content (sched'.foldl (stepCoord content) s) := by
    intro sched'
    induction sched' with
    | nil => exact fun _ s hs => hs
    | cons ev rest ih =>
      intro hc s hs
      rw [List.foldl_cons]
      exact ih (fun e he => hc e (List.mem_cons_of_mem ev he)) (stepCoord content s ev)
        (coordClean_step content s ev (hc ev (List.mem_cons_self ev rest)) hs)
  exact hgen sched hclean initCoord (coordClean_init content)

/-- C9 (amended): under the event-loop concurrency model (the drive handler
is synchronous from the lock check at line 815 to the lock creation at line
844, so check-then-create is one atomic step), for two concurrent
first-time requests for the same fileId and every schedule — stale-lock
observations included — at most one download is in flight in every
reachable state, and once both requests have answered, exactly one remote
download was invoked (whichever request creates the lock first proceeds,
the other polls). Both clients receive identical byte content (the full
remote content) only under clean schedules, i.e. when the download
completes within the 30 s staleness window; otherwise the waiter can serve
the partial cache file (see the counterexample). -/
theorem single_flight_download_amended (content : List Nat)
    (sched : List (Requester × Bool)) :
    ((runCoord content sched).phaseA.inFlight && (runCoord content sched).phaseB.inFlight) = false
    ∧ ((runCoord content sched).phaseA.isTerminal = true →
        (runCoord content sched).phaseB.isTerminal = true →
        (runCoord content sched).downloadCount = 1)
    ∧ (cleanSched sched →
        (runCoord content sched).phaseA.isTerminal = true →
        (runCoord content sched).phaseB.isTerminal = true →
        (runCoord content sched).phaseA.bytes = some content
        ∧ (runCoord content sched).phaseB.bytes = some content) := by
  obtain ⟨hS1, hS2, hS3, hS4, hS5, hS6, hS7, hS8, hS9⟩ := coordSafe_run content sched
  refine ⟨hS1, ?_, ?_⟩
  · intro htA htB
    cases hpA : (runCoord content sched).phaseA with
    | served bA =>
      cases hpB : (runCoord content sched).phaseB with
      | served bB =>
        exfalso
        have := hS8 bA hpA
        rw [hpA, hpB] at this
        simp [ReqPhase.startedDownload] at this
      | downloadedDone bB =>
        rw [hS3, hpA, hpB]
        simp [ReqPhase.startedDownload]
      | start => rw [hpB] at htB; simp [ReqPhase.isTerminal] at htB
      | waiting => rw [hpB] at htB; simp [ReqPhase.isTerminal] at htB
      | downloading => rw [hpB] at htB; simp [ReqPhase.isTerminal] at htB
      | flushed => rw [hpB] at htB; simp [ReqPhase.isTerminal] at htB
    | downloadedDone bA =>
      have hstB : (runCoord content sched).phaseB.startedDownload = false := by
        have := hS2
        rw [hpA] at this
        simpa [ReqPhase.startedDownload] using this
      rw [hS3, hpA, hstB]
      simp [ReqPhase.startedDownload]
    | start => rw [hpA] at htA; simp [ReqPhase.isTerminal] at htA
    | waiting => rw [hpA] at htA; simp [ReqPhase.isTerminal] at htA
    | downloading => rw [hpA] at htA; simp [ReqPhase.isTerminal] at htA
    | flushed => rw [hpA] at htA; simp [ReqPhase.isTerminal] at htA
  · intro hclean htA htB
    obtain ⟨hC1, hC2, hC3, hC4, hC5, hC6, hC7, hC8, hC9, hC10, hC11⟩ :=
      coordClean_run content sched hclean
    constructor
    · cases hpA : (runCoord content sched).phaseA with
      | served bA => simp [ReqPhase.bytes, hC8 bA hpA]
      | downloadedDone bA => simp [ReqPhase.bytes, hC10 bA hpA]
      | start => rw [hpA] at htA; simp [ReqPhase.isTerminal] at htA
      | waiting => rw [hpA] at htA; simp [ReqPhase.isTerminal] at htA
      | downloading => rw [hpA] at htA; simp [ReqPhase.isTerminal] at htA
      | flushed => rw [hpA] at htA; simp [ReqPhase.isTerminal] at htA
    · cases hpB : (runCoord content sched).phaseB with
      | served bB => simp [ReqPhase.bytes, hC9 bB hpB]
      | downloadedDone bB => simp [ReqPhase.bytes, hC11 bB hpB]
      | start => rw [hpB] at htB; simp [ReqPhase.isTerminal] at htB
      | waiting => rw [hpB] at htB; simp [ReqPhase.isTerminal] at htB
      | downloading => rw [hpB] at htB; simp [ReqPhase.isTerminal] at htB
      | flushed => rw [hpB] at htB; simp [ReqPhase.isTerminal] at htB

/-- C9 (counterexample): a download that outlasts the 30 s staleness
window refutes "both requests eventually receive identical byte content":
request A downloads; B finds the lock, polls, observes the stale lock,
unlinks it mid-download (line 773) and serves the cache file as it stands
(lines 819-824), receiving the partial bytes, while A's client receives
the full content — both requests terminate, exactly one download was
invoked, and the received bytes differ. -/
theorem stale_download_divergent_bytes_counterexample :
    (runCoord [1, 2, 3]
      [(.reqA, false), (.reqB, false), (.reqB, true), (.reqA, false), (.reqA, false)]).phaseA.isTerminal = true
    ∧ (runCoord [1, 2, 3]
      [(.reqA, false), (.reqB, false), (.reqB, true), (.reqA, false), (.reqA, false)]).phaseB.isTerminal = true
    ∧ (runCoord [1, 2, 3]
      [(.reqA, false), (.reqB, false), (.reqB, true), (.reqA, false), (.reqA, false)]).downloadCount = 1
    ∧ (runCoord [1, 2, 3]
      [(.reqA, false), (.reqB, false), (.reqB, true), (.reqA, false), (.reqA, false)]).phaseA.bytes = some [1, 2, 3]
    ∧ (runCoord [1, 2, 3]
      [(.reqA, false), (.reqB, false), (.reqB, true), (.reqA, false), (.reqA, false)]).phaseB.bytes = some []
    ∧ ¬((runCoord [1, 2, 3]
      [(.reqA, false), (.reqB, false), (.reqB, true), (.reqA, false), (.reqA, false)]).phaseA.bytes =
      (runCoord [1, 2, 3]
      [(.reqA, false), (.reqB, false), (.reqB, true), (.reqA, false), (.reqA, false)]).phaseB.bytes) := by
  refine ⟨by decide, by decide, by decide, by decide, by decide, by decide⟩

/-- C9 (witness): a clean interleaving — A downloads, B waits and then
serves the full content from the cache. -/
theorem single_flight_download_amended_witness :
    (runCoord [1, 2, 3]
      [(.reqA, false), (.reqB, false), (.reqA, false), (.reqA, false), (.reqB, false)]).downloadCount = 1
    ∧ (runCoord [1, 2, 3]
      [(.reqA, false), (.reqB, false), (.reqA, false), (.reqA, false), (.reqB, false)]).phaseA.bytes = some [1, 2, 3]
    ∧ (runCoord [1, 2, 3]
      [(.reqA, false), (.reqB, false), (.reqA, false), (.reqA, false), (.reqB, false)]).phaseB.bytes = some [1, 2, 3] :=
  ⟨(single_flight_download_amended [1, 2, 3]
      [(.reqA, false), (.reqB, false), (.reqA, false), (.reqA, false), (.reqB, false)]).2.1
      (by decide) (by decide),
   ((single_flight_download_amended [1, 2, 3]
      [(.reqA, false), (.reqB, false), (.reqA, false), (.reqA, false), (.reqB, false)]).2.2
      (by intro ev hev; fin_cases hev <;> rfl) (by decide) (by decide)).1,
   ((single_flight_download_amended [1, 2, 3]
      [(.reqA, false), (.reqB, false), (.reqA, false), (.reqA, false), (.reqB, false)]).2.2
      (by intro ev hev; fin_cases hev <;> rfl) (by decide) (by decide)).2⟩
end Sheevy
